import Mathlib

/-
  Verification of the location-coding checker (check_location.py).
  The Python source is shallowly embedded below: pandas DataFrames become
  the PDF structure (headers, per-column object-dtype flags, rows of
  optional string cells where a missing cell models NaN), the regular
  expressions of the source become Regex abstract syntax trees matched by
  a Brzozowski-derivative engine with Python re.match (match-at-start)
  semantics, and the I/O collaborators (HDX download, zip extraction,
  pandas/geopandas readers) become oracle fields of Resource and World.
  Python code that can raise an uncaught exception is embedded as a
  function returning Option, with none for the exception.
-/

/-! ## Regular expression engine

A small regex AST with Brzozowski-derivative matching, used to embed the
patterns of the Python source. Smart constructors keep derivatives small. -/

inductive Regex where
  | emp : Regex
  | eps : Regex
  | pred : (Char → Bool) → Regex
  | cat : Regex → Regex → Regex
  | alt : Regex → Regex → Regex
  | star : Regex → Regex

namespace Regex

def nullable : Regex → Bool
  | .emp => false
  | .eps => true
  | .pred _ => false
  | .cat r s => r.nullable && s.nullable
  | .alt r s => r.nullable || s.nullable
  | .star _ => true

/-- Smart concatenation: collapses the empty and epsilon regexes. -/
def scat : Regex → Regex → Regex
  | .emp, _ => .emp
  | .eps, s => s
  | r, .eps => r
  | r, s => .cat r s

/-- Smart alternation: collapses the empty regex. -/
def salt : Regex → Regex → Regex
  | .emp, s => s
  | r, .emp => r
  | r, s => .alt r s

def deriv (r : Regex) (c : Char) : Regex :=
  match r with
  | .emp => .emp
  | .eps => .emp
  | .pred p => if p c then .eps else .emp
  | .cat r s => if r.nullable then salt (scat (r.deriv c) s) (s.deriv c) else scat (r.deriv c) s
  | .alt r s => salt (r.deriv c) (s.deriv c)
  | .star r => scat (r.deriv c) (.star r)

/-- Python re.match semantics: does the regex match some initial segment
of the character list? -/
def matchPre : Regex → List Char → Bool
  | r, [] => r.nullable
  | r, c :: cs => r.nullable || (r.deriv c).matchPre cs

/-- One literal character. -/
def chr (c : Char) : Regex := .pred (· == c)

/-- A literal string. -/
def lit (s : String) : Regex := s.data.foldr (fun c r => .cat (chr c) r) .eps

/-- Python regex `?` on a group. -/
def opt (r : Regex) : Regex := .alt r .eps

/-- Python regex `.` : any character except a newline. -/
def dot : Regex := .pred (· != '\n')

/-- Python regex `\` `d` : a decimal digit. -/
def digit : Regex := .pred Char.isDigit

/-- Python regex `\` `s` : a whitespace character. -/
def ws : Regex := .pred Char.isWhitespace

/-- Alternation of a list of regexes. -/
def alts : List Regex → Regex := List.foldr .alt .emp

/-- One or more repetitions. -/
def plus (r : Regex) : Regex := .cat r (.star r)

end Regex

/-- ASCII lowercasing, character by character; the Python str.lower of
the ASCII headers and codes this program handles. -/
def lowerStr (s : String) : String := String.mk (s.data.map Char.toLower)

/-- Case-insensitive match-at-start (re.match with re.IGNORECASE or the
pandas case=False flag): the subject is lowercased; the patterns below are
written over lowercase letters. -/
def ciMatch (r : Regex) (s : String) : Bool := r.matchPre (lowerStr s).data

/-! ## String helpers mirroring Python operations

String is manipulated through its character list so that every operation
computes by kernel reduction. -/

/-- Python substring containment `needle in s`, on character lists. -/
def containsCL (s needle : List Char) : Bool :=
  match s with
  | [] => needle.isEmpty
  | c :: cs => needle.isPrefixOf (c :: cs) || containsCL cs needle

/-- Python substring containment `needle in s`. -/
def containsStr (s needle : String) : Bool := containsCL s.data needle.data

/-- Does s start with pre (str.startswith, re.match of a literal)? -/
def strStarts (s pre : String) : Bool := pre.data.isPrefixOf s.data

/-- Does s end with suf (the suffix test of the glob model)? -/
def strEnds (s suf : String) : Bool := suf.data.isSuffixOf s.data

/-- Python str.split on a non-empty separator, on character lists. The
fuel argument is any upper bound on the subject length (the subject
length at the top call); it only forces structural termination and never
runs out before the subject does. -/
def splitOnCL (sep : List Char) (fuel : Nat) (s : List Char) : List (List Char) :=
  match fuel, s with
  | _, [] => [[]]
  | 0, s => [s]
  | Nat.succ fuel, c :: cs =>
    match sep with
    | [] => [c :: cs]
    | s0 :: srest =>
      if (s0 :: srest).isPrefixOf (c :: cs) then
        [] :: splitOnCL (s0 :: srest) fuel (cs.drop srest.length)
      else
        match splitOnCL (s0 :: srest) fuel cs with
        | [] => [[c]]
        | h :: t => (c :: h) :: t

/-- Python str.split on a non-empty separator. -/
def strSplitOn (s sep : String) : List String :=
  (splitOnCL sep.data s.data.length s.data).map String.mk

/-- Python sep.join. -/
def joinSep (sep : String) : List String → String
  | [] => ""
  | [s] => s
  | s :: rest => s ++ sep ++ joinSep sep rest

/-- os.path.basename for forward-slash paths. -/
def pathBase (s : String) : String := (strSplitOn s "/").getLastD s

/-- os.path.dirname for forward-slash paths. -/
def pathDir (s : String) : String := joinSep "/" (strSplitOn s "/").dropLast

/-! ## The DataFrame model

A pandas DataFrame as read by read_csv / read_excel / geopandas read_file:
string column labels, a per-column flag telling whether the dtype is
object/string (text), and rows of cells, where a cell is `none` for NaN
and `some v` for the text value v. Numeric cells of non-text columns are
modelled by their string rendering; only their presence matters to the
embedded checks. -/

structure PDF where
  headers : List String
  objFlags : List Bool
  rows : List (List (Option String))
deriving Repr, DecidableEq

/-- Python str() applied to a cell by pandas astype(str): NaN renders as
the string nan. -/
def cellStr : Option String → String
  | none => "nan"
  | some s => s

/-- Python truthiness of a raw cell value: NaN (a float) is truthy, the
empty string is falsy, any other string truthy. -/
def cellTruthy : Option String → Bool
  | none => true
  | some s => s ≠ ""

namespace PDF

/-- Column j of the frame, top to bottom (df[c] for the j-th label c). -/
def colCells (df : PDF) (j : Nat) : List (Option String) :=
  df.rows.map (fun r => r.getD j none)

/-- All columns with their labels, in order. -/
def allCols (df : PDF) : List (String × List (Option String)) :=
  df.headers.enum.map (fun p => (p.2, df.colCells p.1))

/-- select_dtypes(include=["string", "object"]): the text columns with
their labels, in order. -/
def objCols (df : PDF) : List (String × List (Option String)) :=
  (df.headers.zip df.objFlags).enum.filterMap
    (fun p => if p.2.2 then some (p.2.1, df.colCells p.1) else none)

/-- pandas df.empty: no rows or no columns. -/
def isEmptyDF (df : PDF) : Bool := df.rows.isEmpty || df.headers.isEmpty

end PDF

/-- A row is entirely NaN. -/
def rowEmpty (r : List (Option String)) : Bool := r.all (·.isNone)

/-- Keep the elements whose index (counting from n) satisfies the
predicate. -/
def keepIdxGo {α : Type} (keep : Nat → Bool) (n : Nat) : List α → List α
  | [] => []
  | a :: l => if keep n then a :: keepIdxGo keep (n + 1) l else keepIdxGo keep (n + 1) l

/-- Keep the elements whose index satisfies the predicate. -/
def keepIdx {α : Type} (keep : Nat → Bool) (l : List α) : List α :=
  keepIdxGo keep 0 l

/-- df.dropna(how="all", axis=0): drop the rows that are entirely NaN. -/
def PDF.dropEmptyRows (df : PDF) : PDF :=
  { df with rows := df.rows.filter (fun r => !rowEmpty r) }

/-- df.dropna(how="all", axis=1): drop the columns that are entirely NaN
in the remaining rows, together with their labels and dtype flags. -/
def PDF.dropEmptyCols (df : PDF) : PDF :=
  let keep : Nat → Bool := fun j => df.rows.any (fun r => (r.getD j none).isSome)
  { headers := keepIdx keep df.headers,
    objFlags := keepIdx keep df.objFlags,
    rows := df.rows.map (fun r => keepIdx keep r) }

/-- Python truthiness of the hxlrow variable: None and 0 are falsy, any
positive row index truthy. -/
def optNatTruthy : Option Nat → Bool
  | none => false
  | some 0 => false
  | some _ => true

/-- Python truthiness of a tri-state verdict (None / True / False). -/
def optTruthy : Option Bool → Bool
  | none => false
  | some b => b

/-- Is row i (after astype(str)) made only of cells that are empty
strings or hash tags? This is the loop body test of parse_tabular:
bool(re.match("#.*", t)) if t else True. A NaN cell renders as the
non-empty string nan and therefore fails the hash-tag test. -/
def rowAllHxl (df : PDF) (i : Nat) : Bool :=
  (df.rows.getD i []).all (fun t =>
    let s := cellStr t
    if s ≠ "" then strStarts s "#" else true)

/-- The while loop of parse_tabular searching for an HXL tag row, with
its exact Python truthiness: the loop keeps scanning while hxlrow is None
or 0, so a qualifying row at index 0 records 0 but does not stop the
scan and can be overwritten by a later qualifying row. The fuel argument
(10 at the top call) bounds the iteration count exactly like i < 10. -/
def hxlScanGo (df : PDF) : Nat → Nat → Option Nat → Option Nat
  | 0, _, hxlrow => hxlrow
  | fuel + 1, i, hxlrow =>
    if i < 10 && decide (i < df.rows.length) && !optNatTruthy hxlrow then
      hxlScanGo df fuel (i + 1) (if rowAllHxl df i then some i else hxlrow)
    else hxlrow

def hxlScan (df : PDF) : Option Nat := hxlScanGo df 10 0 none

/-- Label construction of the HXL branch of parse_tabular, one column at
a time: the cells of the column down to and including row h, filtered by
Python truthiness (NaN is truthy and, being a float, would make the
string join raise: that exception is the none outcome), with the
existing label prepended when it does not contain Unnamed, joined
with the fixed separator. -/
def hxlJoin (df : PDF) (h : Nat) : Option (List String) :=
  (df.headers.enum.mapM (fun p => do
    let kept := ((df.colCells p.1).take (h + 1)).filter cellTruthy
    if kept.any (·.isNone) then none
    else
      let strs := kept.filterMap id
      let strs := if !containsStr p.2 "Unnamed" then p.2 :: strs else strs
      some (joinSep "||" strs)))

/-- Label construction of the composite-header branch of parse_tabular:
as hxlJoin but str() is applied before the join, so NaN cells survive as
the string nan and nothing raises. -/
def compositeJoin (df : PDF) (datarow : Nat) : List String :=
  df.headers.enum.map (fun p =>
    let strs := (((df.colCells p.1).take datarow).filter cellTruthy).map cellStr
    let strs := if !containsStr p.2 "Unnamed" then p.2 :: strs else strs
    joinSep "||" strs)

/-- parse_tabular of the source: drop empty rows then empty columns, take
row 0 as header when every label is an Unnamed placeholder (df.loc[0] on
an empty frame raises: none), return as-is when some column has a
non-object dtype or only one row remains, then scan for an HXL tag row
and rebuild labels. none models an uncaught Python exception. -/
def parse_tabular (df0 : PDF) (fileext : String) : Option PDF :=
  let df1 := df0.dropEmptyRows.dropEmptyCols
  let step3 : Option PDF :=
    if df1.headers.all (fun c => strStarts c "Unnamed") then
      match df1.rows with
      | [] => none
      | r0 :: rest =>
        some { df1 with
               headers := r0.enum.map (fun p =>
                 match p.2 with
                 | some s => s
                 | none => "Unnamed: " ++ toString p.1),
               rows := rest }
    else some df1
  match step3 with
  | none => none
  | some df2 =>
    if !df2.objFlags.all id then
      some df2
    else if df2.rows.length == 1 then
      some df2
    else
      let hxlrow := hxlScan df2
      if optNatTruthy hxlrow then
        let h := hxlrow.getD 0
        match hxlJoin df2 h with
        | none => none
        | some cols =>
          some { df2 with headers := cols, rows := df2.rows.drop (h + 1) }
      else if fileext == "csv" then
        some df2
      else
        let datarow := 3
        let datarow := if optNatTruthy hxlrow then hxlrow.getD 0 + 1 else datarow
        let datarow := if df2.rows.length < 3 then df2.rows.length else datarow
        some { df2 with headers := compositeJoin df2 datarow,
                        rows := df2.rows.drop datarow }

/-! ## The regex patterns of the source

Each definition below is the AST of one Python pattern string, written
over lowercase letters because every use in the source is
case-insensitive and ciMatch lowercases the subject. -/

/-- The pcode header pattern of check_pcoded, the alternation of
an optional adm, any characters, optional p, optional any character,
the literal cod, any characters, with a hash-tag form starting with a
hash, optional whitespace, adm, optional whitespace, an optional digit,
an optional plus sign, optional whitespace, an optional p and an
optional code. -/
def pcodeHeaderExp : Regex :=
  .alt
    (.cat (Regex.opt (Regex.lit "adm"))
      (.cat (.star Regex.dot)
        (.cat (Regex.opt (Regex.chr 'p'))
          (.cat (Regex.opt Regex.dot)
            (.cat (Regex.lit "cod") (.star Regex.dot))))))
    (.cat (Regex.chr '#')
      (.cat (Regex.opt Regex.ws)
        (.cat (Regex.lit "adm")
          (.cat (Regex.opt Regex.ws)
            (.cat (Regex.opt Regex.digit)
              (.cat (Regex.opt (Regex.chr '+'))
                (.cat (Regex.opt Regex.ws)
                  (.cat (Regex.opt (Regex.chr 'p'))
                    (Regex.opt (Regex.lit "code"))))))))))

/-- The pcode value pattern of check_pcoded: an alternation of every
country code (the source concatenates the ISO3 list and the ISO2 list)
followed by one or more digits. The codes are lowercased because the
match is case-insensitive. -/
def pcodeExp (isos : List String) : Regex :=
  .cat (Regex.alts (isos.map (fun c => Regex.lit (lowerStr c)))) (Regex.plus Regex.digit)

/-- The latitude header pattern of check_latlong: any characters then
latitud with an optional e then any characters, or the literal lat, or
an optional point with an optional trailing character followed by y, or
a hash, optional whitespace, geo, optional whitespace, a plus sign,
optional whitespace and lat. -/
def latHeaderExp : Regex :=
  Regex.alts
    [ .cat (.star Regex.dot)
        (.cat (Regex.lit "latitud") (.cat (Regex.opt (Regex.chr 'e')) (.star Regex.dot))),
      Regex.lit "lat",
      .cat (Regex.opt (.cat (Regex.lit "point") (Regex.opt Regex.dot))) (Regex.chr 'y'),
      .cat (Regex.chr '#')
        (.cat (Regex.opt Regex.ws)
          (.cat (Regex.lit "geo")
            (.cat (Regex.opt Regex.ws)
              (.cat (Regex.chr '+') (.cat (Regex.opt Regex.ws) (Regex.lit "lat")))))) ]

/-- The longitude header pattern of check_latlong, symmetric to the
latitude one: longitud with an optional e, or lon with an optional g, or
an optional point with an optional trailing character followed by x, or
the hash-geo-plus-lon tag form. -/
def lonHeaderExp : Regex :=
  Regex.alts
    [ .cat (.star Regex.dot)
        (.cat (Regex.lit "longitud") (.cat (Regex.opt (Regex.chr 'e')) (.star Regex.dot))),
      .cat (Regex.lit "lon") (Regex.opt (Regex.chr 'g')),
      .cat (Regex.opt (.cat (Regex.lit "point") (Regex.opt Regex.dot))) (Regex.chr 'x'),
      .cat (Regex.chr '#')
        (.cat (Regex.opt Regex.ws)
          (.cat (Regex.lit "geo")
            (.cat (Regex.opt Regex.ws)
              (.cat (Regex.chr '+') (.cat (Regex.opt Regex.ws) (Regex.lit "lon")))))) ]

/-! ## The pcode classifier -/

/-- The body of the column loop of check_pcoded for one text column:
does some constituent of the split header match the pcode header
pattern, and, the NaN values dropped, is there at least one value
matching the pcode value pattern with at most five non-matching
non-missing values? -/
def pcodeColQ (re : Regex) (col : String × List (Option String)) : Bool :=
  let headerOk := (strSplitOn col.1 "||").any (fun head => ciMatch pcodeHeaderExp head)
  if !headerOk then false
  else
    let column := col.2.filterMap id
    let nMatch := column.countP (fun v => ciMatch re v)
    decide (column.length - nMatch ≤ 5) && decide (nMatch > 0)

/-- check_pcoded of the source: the nested scan over every sample and
every text column, with the break-on-first-positive control flow, the
verdict starting as None and only ever set to True. -/
def check_pcoded (iso3s iso2s : List String) (contents : List PDF) : Option Bool :=
  let re := pcodeExp (iso3s ++ iso2s)
  contents.foldl
    (fun pcoded content =>
      if optTruthy pcoded then pcoded
      else
        content.objCols.foldl
          (fun pcoded col =>
            if optTruthy pcoded then pcoded
            else if pcodeColQ re col then some true
            else pcoded)
          pcoded)
    none

/-! ## The lat/long classifier -/

/-- Does the column qualify for the latitude role: a header constituent
matches the latitude header family and, NaN dropped and values coerced
to text, at least one value matches some latitude pattern with at most
five non-matching values. -/
def latColQ (latPats : List Regex) (col : String × List (Option String)) : Bool :=
  let latH := (strSplitOn col.1 "||").any (fun head => ciMatch latHeaderExp head)
  if !latH then false
  else
    let column := col.2.filterMap id
    let nMatch := column.countP (fun v => latPats.any (fun p => ciMatch p v))
    decide (column.length - nMatch ≤ 5) && decide (nMatch > 0)

/-- The longitude role, symmetric to latColQ. -/
def lonColQ (lonPats : List Regex) (col : String × List (Option String)) : Bool :=
  let lonH := (strSplitOn col.1 "||").any (fun head => ciMatch lonHeaderExp head)
  if !lonH then false
  else
    let column := col.2.filterMap id
    let nMatch := column.countP (fun v => lonPats.any (fun p => ciMatch p v))
    decide (column.length - nMatch ≤ 5) && decide (nMatch > 0)

/-- The body of the column loop of check_latlong: state latted, longed,
latlonged, each None until set to True; columns are skipped once
latlonged is truthy, a column matching neither header family is skipped,
otherwise each satisfied role is recorded and latlonged becomes True
once both roles are. -/
def llStep (latPats lonPats : List Regex)
    (st : Option Bool × Option Bool × Option Bool)
    (col : String × List (Option String)) :
    Option Bool × Option Bool × Option Bool :=
  if optTruthy st.2.2 then st
  else
    let headers := strSplitOn col.1 "||"
    let latH := headers.any (fun head => ciMatch latHeaderExp head)
    let lonH := headers.any (fun head => ciMatch lonHeaderExp head)
    if !latH && !lonH then st
    else
      let latted := if latH && latColQ latPats col then some true else st.1
      let longed := if lonH && lonColQ lonPats col then some true else st.2.1
      let latlonged :=
        if optTruthy latted && optTruthy longed then some true else st.2.2
      (latted, longed, latlonged)

/-- check_latlong of the source: per sample, latted and longed restart
at None, and the collection verdict becomes True only when one sample
satisfies both roles; break-on-confirmed across samples. -/
def check_latlong (latPats lonPats : List Regex) (contents : List PDF) : Option Bool :=
  contents.foldl
    (fun latlonged content =>
      if optTruthy latlonged then latlonged
      else
        (content.allCols.foldl (llStep latPats lonPats) (none, none, latlonged)).2.2)
    none

/-! ## The orchestrator: resources, oracles, download and read

The catalog, the network and the filesystem are external collaborators:
each resource carries, as oracle fields, the outcomes the collaborators
would produce (whether its download succeeds, the downloaded path,
whether it is a zip archive, whether extraction succeeds, the file paths
the extraction tree holds, the layer list of a geo container), and the
World carries the reference country-code lists, the external coordinate
pattern library, and the per-path outcomes of the pandas and geopandas
readers (none models a read exception). -/

structure Resource where
  name : String
  filetype : String
  downloadOk : Bool
  downloadedFile : String
  isZip : Bool
  unzipOk : Bool
  extractedTree : List String
  layers : String → List String

structure Dataset where
  filetypes : List String
  resources : List Resource

structure World where
  iso3s : List String
  iso2s : List String
  latPats : List Regex
  lonPats : List Regex
  excel : String → Option (List PDF)
  csv : String → Option PDF
  geo : String → Option PDF
  geoLayer : String → String → Option PDF

/-- The filesystem and control events of one check_location invocation:
whether the scratch subdirectory was created and removed, and which
resource indices were passed to download_resource and reached the
classification step. -/
structure Trace where
  mkdirDone : Bool := false
  rmtreeDone : Bool := false
  downloaded : List Nat := []
  classified : List Nat := []
deriving Repr, DecidableEq

/-- download_resource of the source: download (first possible failure),
then, for a zip archive (by signature or by a name containing .zip),
extract (second possible failure), search the extraction tree for paths
with the declared suffix, drop any match that is a substring of another
match, fall back to the downloaded file itself when the extension is
xlsx and no match was found, and expand geo containers into per-layer
pseudo-paths; a non-archive is its own sole candidate. -/
def download_resource (r : Resource) (fileext : String) :
    Option (List String) × Option String :=
  if !r.downloadOk then
    (none, some ("Could not download file " ++ r.name))
  else if r.isZip || containsStr (pathBase r.downloadedFile) ".zip" then
    if !r.unzipOk then
      (none, some ("Could not unzip resource " ++ r.name))
    else
      let fs := r.extractedTree.filter (fun p => strEnds p ("." ++ fileext))
      let fs :=
        if fs.length > 1 then
          fs.filter (fun a => !(fs.any (fun b => b ≠ a && containsStr b a)))
        else fs
      let fs := if fileext == "xlsx" && fs.length == 0 then [r.downloadedFile] else fs
      let fs :=
        if fileext == "gdb" || fileext == "gpkg" then
          (fs.map (fun p => (r.layers p).map (fun i => p ++ "/" ++ i))).flatten
        else fs
      (some fs, none)
  else
    (some [r.downloadedFile], none)

/-- The spreadsheet inner loop of read_downloaded_data: every non-empty
sheet is parsed and appended; parse_tabular runs outside the try block,
so its exception (none) propagates. -/
def sheetsFold (fileext : String) (sheets : List PDF) (data : List PDF) :
    Option (List PDF) :=
  sheets.foldlM
    (fun d sheet =>
      if sheet.isEmptyDF then some d
      else do
        let p ← parse_tabular sheet fileext
        some (d ++ [p]))
    data

/-- The per-file loop of read_downloaded_data, threading the sample
collection and the last error. Spreadsheets append one sample per
non-empty sheet; csv appends one sample (read and parse both inside the
try, so a parse exception becomes the error string); the geo and
geo-container branches replace the whole collection with a fresh
single-sample one; a read failure records the error and moves on. -/
def rdGo (w : World) (fileext : String) :
    List String → List PDF × Option String → Option (List PDF × Option String)
  | [], st => some st
  | f :: rest, (data, error) =>
    if fileext == "xlsx" || fileext == "xls" then
      match w.excel f with
      | none => rdGo w fileext rest (data, some ("Unable to read resource " ++ pathBase f))
      | some sheets => do
        let data ← sheetsFold fileext sheets data
        rdGo w fileext rest (data, error)
    else if fileext == "csv" then
      match w.csv f with
      | none => rdGo w fileext rest (data, some ("Unable to read resource " ++ pathBase f))
      | some df =>
        match parse_tabular df fileext with
        | none => rdGo w fileext rest (data, some ("Unable to read resource " ++ pathBase f))
        | some p => rdGo w fileext rest (data ++ [p], error)
    else if fileext == "geojson" || fileext == "json" || fileext == "shp"
        || fileext == "topojson" then
      match w.geo f with
      | none => rdGo w fileext rest (data, some ("Unable to read resource " ++ pathBase f))
      | some df => rdGo w fileext rest ([df], error)
    else if fileext == "gdb" || fileext == "gpkg" then
      match w.geoLayer (pathDir f) (pathBase f) with
      | none => rdGo w fileext rest (data, some ("Unable to read resource " ++ pathBase f))
      | some df => rdGo w fileext rest ([df], error)
    else
      rdGo w fileext rest (data, error)

/-- read_downloaded_data of the source; none models an uncaught
exception escaping from the spreadsheet branch. -/
def read_downloaded_data (w : World) (resource_files : List String)
    (fileext : String) : Option (List PDF × Option String) :=
  rdGo w fileext resource_files ([], none)

def allowed_filetypes : List String :=
  ["csv", "geodatabase", "geojson", "geopackage", "json",
   "shp", "topojson", "xls", "xlsx"]

/-- The filetype-to-extension mapping of the resource loop. -/
def extOf (filetype : String) : String :=
  let fe := filetype
  let fe := if fe == "geodatabase" then "gdb" else fe
  if fe == "geopackage" then "gpkg" else fe

/-- The error message of the filetype gate. The source text holds an
apostrophe, spelled here through its character code. -/
def cantCheckMsg : String :=
  "Can" ++ String.singleton (Char.ofNat 39) ++ "t check formats"

/-- The latitude and longitude check is only run for these filetypes. -/
def latlongFiletypes : List String := ["csv", "json", "xls", "xlsx"]

/-- The code after the resource loop of check_location: a still-unset
pcode verdict becomes False when no error stands, likewise the lat/long
verdict, and the scratch directory is removed. -/
def finalize (p l : Option Bool) (e : Option String) (tr : Trace) :
    Option (Option Bool × Option Bool × Option String) × Trace :=
  let p := if e.isNone && !optTruthy p then some false else p
  let l := if e.isNone && !optTruthy p && !optTruthy l then some false else l
  (some (p, l, e), { tr with rmtreeDone := true })

/-- The resource loop of check_location, one iteration per resource in
listing order, carrying the verdict pair, the last error and the event
trace. A truthy pcode verdict breaks to the finalize step. A resource
whose filetype is not allowed is skipped. download_resource failing
(None) or producing an empty candidate list returns at once, skipping
the finalize step and the scratch-directory removal. Otherwise the
samples are read (a none read is the uncaught exception, which also
skips the removal) and classified. -/
def clLoop (w : World) :
    Nat → List Resource → Option Bool → Option Bool → Option String → Trace →
    Option (Option Bool × Option Bool × Option String) × Trace
  | _, [], p, l, e, tr => finalize p l e tr
  | i, r :: rest, p, l, e, tr =>
    if optTruthy p then finalize p l e tr
    else
      let filetype := r.filetype
      let fe := extOf filetype
      if !allowed_filetypes.contains filetype then
        clLoop w (i + 1) rest p l e tr
      else
        let tr := { tr with downloaded := tr.downloaded ++ [i] }
        match download_resource r fe with
        | (none, derr) => (some (p, l, derr), tr)
        | (some files, derr) =>
          if files.isEmpty then (some (p, l, derr), tr)
          else
            match read_downloaded_data w files fe with
            | none => (none, tr)
            | some (contents, rerr) =>
              let tr := { tr with classified := tr.classified ++ [i] }
              let p := if !optTruthy p then check_pcoded w.iso3s w.iso2s contents else p
              let l :=
                if !optTruthy p && !optTruthy l && latlongFiletypes.contains filetype then
                  check_latlong w.latPats w.lonPats contents
                else l
              clLoop w (i + 1) rest p l rerr tr

/-- check_location of the source: the filetype gate (failing fast with
the fixed message before any scratch subdirectory is created), then the
scratch subdirectory creation and the resource loop. -/
def check_location (w : World) (ds : Dataset) :
    Option (Option Bool × Option Bool × Option String) × Trace :=
  if !(ds.filetypes.any (fun f => allowed_filetypes.contains f)) then
    (some (none, none, some cantCheckMsg), {})
  else
    clLoop w 0 ds.resources none none none { mkdirDone := true }

/-! ## Concrete fixtures used by the claim theorems and witnesses -/

/-- A text column headed ADM2PCODE with twenty values, eighteen matching
the Kenya pcode shape and two garbage. -/
def c1pdf18 : PDF :=
  { headers := ["ADM2PCODE"], objFlags := [true],
    rows := List.replicate 18 [some "KEN123"] ++ List.replicate 2 [some "foo"] }

/-- As c1pdf18 but with ten garbage values out of twenty. -/
def c1pdf10 : PDF :=
  { headers := ["ADM2PCODE"], objFlags := [true],
    rows := List.replicate 10 [some "KEN123"] ++ List.replicate 10 [some "foo"] }

/-- A raw sample whose row 0 is a full HXL tag row: every cell matches
the hash-tag pattern. All dtypes are object and there is more than one
row, so it reaches the tag-row scan. -/
def c2df : PDF :=
  { headers := ["a", "b"], objFlags := [true, true],
    rows := [[some "#adm1", some "#adm2"], [some "x", some "y"]] }

/-- An already-normalized sample of the spreadsheet class: unique
placeholder-free labels, no tag row among the leading rows, no empty row
or column, all columns of object dtype, two data rows. -/
def c5df : PDF :=
  { headers := ["name", "org"], objFlags := [true, true],
    rows := [[some "AA", some "BB"], [some "CC", some "DD"]] }

/-- A decimal-degree stand-in for one external coordinate pattern:
digits, a dot, digits. -/
def decRe : Regex :=
  .cat (Regex.plus Regex.digit) (.cat (Regex.chr '.') (Regex.plus Regex.digit))

/-- A sample qualifying for the latitude role only. -/
def llLatOnly : PDF :=
  { headers := ["Latitude"], objFlags := [true], rows := [[some "45.1"]] }

/-- A sample qualifying for the longitude role only. -/
def llLonOnly : PDF :=
  { headers := ["Longitude"], objFlags := [true], rows := [[some "12.3"]] }

/-- A sample qualifying for both roles. -/
def llBoth : PDF :=
  { headers := ["Latitude", "Longitude"], objFlags := [true, true],
    rows := [[some "45.1", some "12.3"]] }

/-- A world whose collaborators all fail; enough for runs that never
read anything. -/
def wTriv : World :=
  { iso3s := [], iso2s := [], latPats := [], lonPats := [],
    excel := fun _ => none, csv := fun _ => none, geo := fun _ => none,
    geoLayer := fun _ _ => none }

/-- A csv resource whose download fails. -/
def rFail : Resource :=
  { name := "r1", filetype := "csv", downloadOk := false, downloadedFile := "",
    isZip := false, unzipOk := true, extractedTree := [], layers := fun _ => [] }

/-- A resource declared xls that downloads as a zip archive, extracts
fine, but whose extraction tree holds no .xls path. -/
def rXlsZip : Resource :=
  { name := "r2", filetype := "xls", downloadOk := true, downloadedFile := "f.zip",
    isZip := true, unzipOk := true, extractedTree := ["d/a.csv"], layers := fun _ => [] }

/-- A world whose csv reader returns the two-role coordinate sample for
the path a.csv and whose coordinate library is the decimal stand-in. -/
def wCsvLL : World :=
  { iso3s := ["KEN"], iso2s := ["KE"], latPats := [decRe], lonPats := [decRe],
    excel := fun _ => none,
    csv := fun f => if f == "a.csv" then some llBoth else none,
    geo := fun _ => none, geoLayer := fun _ _ => none }

/-- A csv resource that downloads directly (no archive) to a.csv. -/
def rCsvLL : Resource :=
  { name := "r0", filetype := "csv", downloadOk := true, downloadedFile := "a.csv",
    isZip := false, unzipOk := true, extractedTree := [], layers := fun _ => [] }

/-- Two single-column geo samples distinguished by their header. -/
def geoPdfA : PDF :=
  { headers := ["first"], objFlags := [true], rows := [[some "1"]] }

def geoPdfB : PDF :=
  { headers := ["second"], objFlags := [true], rows := [[some "2"]] }

/-- A world whose geo reader succeeds on the paths a and b with two
different samples. -/
def wGeo : World :=
  { iso3s := [], iso2s := [], latPats := [], lonPats := [],
    excel := fun _ => none, csv := fun _ => none,
    geo := fun f => if f == "a" then some geoPdfA
                    else if f == "b" then some geoPdfB else none,
    geoLayer := fun _ _ => none }

/-- As rXlsZip but declared xlsx: the extraction tree still offers no
path with the declared suffix. -/
def rXlsxZip : Resource :=
  { name := "r3", filetype := "xlsx", downloadOk := true, downloadedFile := "f.zip",
    isZip := true, unzipOk := true, extractedTree := ["d/a.csv"], layers := fun _ => [] }

/-! ## Characterizations of the break-on-first-positive folds -/

/-- A fold whose step ignores the element once the carried verdict is
truthy and otherwise turns the first qualifying element into True
computes: unchanged when entered truthy, else True exactly when some
element qualifies. -/
theorem foldBreakChar {α : Type} (s : Option Bool → α → Option Bool) (q : α → Bool)
    (h1 : ∀ p c, optTruthy p = true → s p c = p)
    (h2 : ∀ p c, optTruthy p = false → s p c = if q c then some true else p) :
    ∀ (l : List α) (p : Option Bool),
      l.foldl s p = if optTruthy p then p else if l.any q then some true else p := by
  intro l
  induction l with
  | nil =>
    intro p
    simp
  | cons c cs ih =>
    intro p
    cases hp : optTruthy p with
    | true =>
      have hpc : s p c = p := h1 p c hp
      simp [List.foldl, hpc, ih, hp]
    | false =>
      have hpc : s p c = if q c then some true else p := h2 p c hp
      cases hq : q c with
      | true =>
        simp only [List.foldl, hpc, hq, if_pos]
        simp [ih, hp, hq]
      | false =>
        simp only [List.foldl, hpc, hq]
        simp [ih, hp, hq]

/-- check_pcoded computes True exactly when some sample has some
qualifying text column, and None otherwise. -/
theorem check_pcoded_eq (iso3s iso2s : List String) (contents : List PDF) :
    check_pcoded iso3s iso2s contents =
      if contents.any (fun c => c.objCols.any (pcodeColQ (pcodeExp (iso3s ++ iso2s))))
      then some true else none := by
  unfold check_pcoded
  rw [foldBreakChar _ (fun c => c.objCols.any (pcodeColQ (pcodeExp (iso3s ++ iso2s))))]
  · simp [optTruthy]
  · intro p c hp
    simp [hp]
  · intro p c hp
    simp only [hp, Bool.false_eq_true, if_false]
    rw [foldBreakChar _ (pcodeColQ (pcodeExp (iso3s ++ iso2s)))]
    · simp [hp]
    · intro p' c' hp'
      simp [hp']
    · intro p' c' hp'
      simp [hp']

/-- The per-column test of check_pcoded, unfolded to the three clauses
of the specification: a header constituent matching the pcode header
pattern, at least one matching non-missing value, and at most five
non-matching non-missing values. -/
theorem pcodeColQ_iff (re : Regex) (col : String × List (Option String)) :
    pcodeColQ re col = true ↔
      (∃ part ∈ strSplitOn col.1 "||", ciMatch pcodeHeaderExp part = true) ∧
      0 < (col.2.filterMap id).countP (fun v => ciMatch re v) ∧
      (col.2.filterMap id).length - (col.2.filterMap id).countP (fun v => ciMatch re v) ≤ 5 := by
  unfold pcodeColQ
  cases hh : (strSplitOn col.1 "||").any (fun head => ciMatch pcodeHeaderExp head) with
  | false =>
    simp only [hh, Bool.not_false, if_pos]
    constructor
    · intro h
      exact absurd h (by simp)
    · intro ⟨h1, _, _⟩
      rw [← List.any_eq_true] at h1
      rw [hh] at h1
      exact absurd h1 (by simp)
  | true =>
    simp only [hh, Bool.not_true, Bool.false_eq_true, if_false]
    rw [List.any_eq_true] at hh
    simp only [Bool.and_eq_true, decide_eq_true_eq]
    constructor
    · intro ⟨h5, h0⟩
      exact ⟨hh, h0, h5⟩
    · intro ⟨_, h0, h5⟩
      exact ⟨h5, h0⟩

theorem optTruthy_iff (x : Option Bool) : optTruthy x = true ↔ x = some true := by
  cases x with
  | none => simp [optTruthy]
  | some b => cases b <;> simp [optTruthy]

theorem latColQ_header (latPats : List Regex) (col : String × List (Option String))
    (h : (strSplitOn col.1 "||").any (fun head => ciMatch latHeaderExp head) = false) :
    latColQ latPats col = false := by
  unfold latColQ
  simp [h]

theorem lonColQ_header (lonPats : List Regex) (col : String × List (Option String))
    (h : (strSplitOn col.1 "||").any (fun head => ciMatch lonHeaderExp head) = false) :
    lonColQ lonPats col = false := by
  unfold lonColQ
  simp [h]

theorem llStep_char (latPats lonPats : List Regex) (l g ll : Option Bool)
    (col : String × List (Option String))
    (hinv : optTruthy ll = (optTruthy l && optTruthy g))
    (hll : optTruthy ll = false) :
    llStep latPats lonPats (l, g, ll) col =
      ((if latColQ latPats col then some true else l),
       (if lonColQ lonPats col then some true else g),
       (if (optTruthy l || latColQ latPats col) && (optTruthy g || lonColQ lonPats col)
        then some true else ll)) := by
  have hlg : (optTruthy l && optTruthy g) = false := by rw [← hinv, hll]
  cases hlatH : (strSplitOn col.1 "||").any (fun head => ciMatch latHeaderExp head) with
  | false =>
    have hxq := latColQ_header latPats col hlatH
    cases hlonH : (strSplitOn col.1 "||").any (fun head => ciMatch lonHeaderExp head) with
    | false =>
      have hyq := lonColQ_header lonPats col hlonH
      unfold llStep
      simp [hll, hlatH, hlonH, hxq, hyq, hlg]
    | true =>
      unfold llStep
      simp only [hll, hlatH, hlonH]
      cases hy : lonColQ lonPats col <;>
        simp [hxq, hy, hlg, optTruthy]
  | true =>
    cases hlonH : (strSplitOn col.1 "||").any (fun head => ciMatch lonHeaderExp head) with
    | false =>
      have hyq := lonColQ_header lonPats col hlonH
      unfold llStep
      simp only [hll, hlatH, hlonH]
      cases hx : latColQ latPats col <;>
        simp [hx, hyq, hlg, optTruthy]
    | true =>
      unfold llStep
      simp only [hll, hlatH, hlonH]
      cases hx : latColQ latPats col <;> cases hy : lonColQ lonPats col <;>
        simp [hx, hy, hlg, optTruthy]

theorem llFoldChar (latPats lonPats : List Regex) :
    ∀ (cols : List (String × List (Option String))) (l g ll : Option Bool),
      optTruthy ll = (optTruthy l && optTruthy g) →
      (cols.foldl (llStep latPats lonPats) (l, g, ll)).2.2 =
        if (optTruthy l || cols.any (latColQ latPats))
            && (optTruthy g || cols.any (lonColQ lonPats))
        then some true else ll := by
  intro cols
  induction cols with
  | nil =>
    intro l g ll hinv
    simp only [List.foldl, List.any_nil, Bool.or_false, ← hinv]
    cases hll : optTruthy ll with
    | true => simpa using (optTruthy_iff ll).mp hll
    | false => simp
  | cons col cols ih =>
    intro l g ll hinv
    by_cases hllp : optTruthy ll = true
    · have hlg : (optTruthy l && optTruthy g) = true := by rw [← hinv, hllp]
      have hstep : llStep latPats lonPats (l, g, ll) col = (l, g, ll) := by
        unfold llStep
        simp [hllp]
      rw [List.foldl_cons, hstep, ih l g ll hinv]
      rcases (by simpa using hlg : optTruthy l = true ∧ optTruthy g = true) with ⟨hl, hg⟩
      simp [hl, hg, (optTruthy_iff ll).mp hllp]
    · have hll' : optTruthy ll = false := by
        cases h : optTruthy ll
        · rfl
        · exact absurd h hllp
      have hlg : (optTruthy l && optTruthy g) = false := by rw [← hinv, hll']
      rw [List.foldl_cons, llStep_char latPats lonPats l g ll col hinv hll']
      have hot : ∀ (x : Bool) (o : Option Bool),
          optTruthy (if x then some true else o) = (optTruthy o || x) := by
        intro x o
        cases x <;> simp [optTruthy]
      have hinv' :
          optTruthy (if (optTruthy l || latColQ latPats col)
              && (optTruthy g || lonColQ lonPats col) then some true else ll) =
            (optTruthy (if latColQ latPats col then some true else l) &&
             optTruthy (if lonColQ lonPats col then some true else g)) := by
        have hRHS : (optTruthy (if latColQ latPats col then some true else l) &&
              optTruthy (if lonColQ lonPats col then some true else g)) =
            ((optTruthy l || latColQ latPats col)
              && (optTruthy g || lonColQ lonPats col)) := by
          rw [hot, hot]
        rw [hRHS]
        cases hc : (optTruthy l || latColQ latPats col)
            && (optTruthy g || lonColQ lonPats col) with
        | true => simp [optTruthy]
        | false => simpa using hll'
      rw [ih _ _ _ hinv']
      simp only [List.any_cons, ← Bool.or_assoc, hot]
      cases hp : (optTruthy l || latColQ latPats col) <;>
        cases hq : (optTruthy g || lonColQ lonPats col) <;>
        simp [hp, hq]

theorem check_latlong_eq (latPats lonPats : List Regex) (contents : List PDF) :
    check_latlong latPats lonPats contents =
      if contents.any (fun c =>
          c.allCols.any (latColQ latPats) && c.allCols.any (lonColQ lonPats))
      then some true else none := by
  unfold check_latlong
  rw [foldBreakChar _ (fun c =>
      c.allCols.any (latColQ latPats) && c.allCols.any (lonColQ lonPats))]
  · simp [optTruthy]
  · intro p c hp
    simp [hp]
  · intro p c hp
    simp only [hp, Bool.false_eq_true, if_false]
    rw [llFoldChar latPats lonPats c.allCols none none p (by simpa using hp)]
    simp only [optTruthy, Bool.false_or]

theorem latColQ_iff (latPats : List Regex) (col : String × List (Option String)) :
    latColQ latPats col = true ↔
      (∃ part ∈ strSplitOn col.1 "||", ciMatch latHeaderExp part = true) ∧
      0 < (col.2.filterMap id).countP (fun v => latPats.any (fun p => ciMatch p v)) ∧
      (col.2.filterMap id).length -
          (col.2.filterMap id).countP (fun v => latPats.any (fun p => ciMatch p v)) ≤ 5 := by
  unfold latColQ
  cases hh : (strSplitOn col.1 "||").any (fun head => ciMatch latHeaderExp head) with
  | false =>
    simp only [hh, Bool.not_false, if_pos]
    constructor
    · intro h
      exact absurd h (by simp)
    · intro ⟨h1, _, _⟩
      rw [← List.any_eq_true] at h1
      rw [hh] at h1
      exact absurd h1 (by simp)
  | true =>
    simp only [hh, Bool.not_true, Bool.false_eq_true, if_false]
    rw [List.any_eq_true] at hh
    simp only [Bool.and_eq_true, decide_eq_true_eq]
    constructor
    · intro ⟨h5, h0⟩
      exact ⟨hh, h0, h5⟩
    · intro ⟨_, h0, h5⟩
      exact ⟨h5, h0⟩

theorem lonColQ_iff (lonPats : List Regex) (col : String × List (Option String)) :
    lonColQ lonPats col = true ↔
      (∃ part ∈ strSplitOn col.1 "||", ciMatch lonHeaderExp part = true) ∧
      0 < (col.2.filterMap id).countP (fun v => lonPats.any (fun p => ciMatch p v)) ∧
      (col.2.filterMap id).length -
          (col.2.filterMap id).countP (fun v => lonPats.any (fun p => ciMatch p v)) ≤ 5 := by
  unfold lonColQ
  cases hh : (strSplitOn col.1 "||").any (fun head => ciMatch lonHeaderExp head) with
  | false =>
    simp only [hh, Bool.not_false, if_pos]
    constructor
    · intro h
      exact absurd h (by simp)
    · intro ⟨h1, _, _⟩
      rw [← List.any_eq_true] at h1
      rw [hh] at h1
      exact absurd h1 (by simp)
  | true =>
    simp only [hh, Bool.not_true, Bool.false_eq_true, if_false]
    rw [List.any_eq_true] at hh
    simp only [Bool.and_eq_true, decide_eq_true_eq]
    constructor
    · intro ⟨h5, h0⟩
      exact ⟨hh, h0, h5⟩
    · intro ⟨_, h0, h5⟩
      exact ⟨h5, h0⟩

/-! ## Claim theorems -/

/-- C1: check_pcoded returns True exactly when some sample has a
text/object column whose split header contains a part matching the
pcode header pattern case-insensitively and whose non-missing values
hold at least one match of the country-code-prefixed value pattern with
at most five non-matching non-missing values; in particular a qualifying
column with twenty values and two mismatches yields True, while one with
ten mismatches does not by itself yield True (the verdict stays None,
not True). -/
theorem claim_C1 :
    (∀ (iso3s iso2s : List String) (contents : List PDF),
      check_pcoded iso3s iso2s contents = some true ↔
        ∃ sample ∈ contents, ∃ col ∈ sample.objCols,
          (∃ part ∈ strSplitOn col.1 "||", ciMatch pcodeHeaderExp part = true) ∧
          0 < (col.2.filterMap id).countP
                (fun v => ciMatch (pcodeExp (iso3s ++ iso2s)) v) ∧
          (col.2.filterMap id).length -
              (col.2.filterMap id).countP
                (fun v => ciMatch (pcodeExp (iso3s ++ iso2s)) v) ≤ 5) ∧
    check_pcoded ["KEN"] ["KE"] [c1pdf18] = some true ∧
    check_pcoded ["KEN"] ["KE"] [c1pdf10] = none := by
  refine ⟨?_, by decide, by decide⟩
  intro iso3s iso2s contents
  rw [check_pcoded_eq]
  constructor
  · intro h
    by_cases hq : (contents.any fun c =>
        c.objCols.any (pcodeColQ (pcodeExp (iso3s ++ iso2s)))) = true
    · rw [List.any_eq_true] at hq
      obtain ⟨sample, hs, hcol⟩ := hq
      rw [List.any_eq_true] at hcol
      obtain ⟨col, hc, hcq⟩ := hcol
      exact ⟨sample, hs, col, hc, (pcodeColQ_iff _ _).mp hcq⟩
    · rw [if_neg hq] at h
      exact absurd h (by simp)
  · intro ⟨sample, hs, col, hc, hprops⟩
    have hq : (contents.any fun c =>
        c.objCols.any (pcodeColQ (pcodeExp (iso3s ++ iso2s)))) = true := by
      rw [List.any_eq_true]
      refine ⟨sample, hs, ?_⟩
      rw [List.any_eq_true]
      exact ⟨col, hc, (pcodeColQ_iff _ _).mpr hprops⟩
    rw [if_pos hq]

/-- C3: check_latlong returns True exactly when one single sample holds
both a column qualifying for the latitude role (split header matching
the latitude family, coerced non-missing values matching some latitude
pattern, at least one match and at most five mismatches) and a column,
possibly the same, qualifying symmetrically for the longitude role; a
collection of one latitude-only sample and one longitude-only sample
yields no True verdict. -/
theorem claim_C3 :
    (∀ (latPats lonPats : List Regex) (contents : List PDF),
      check_latlong latPats lonPats contents = some true ↔
        ∃ sample ∈ contents,
          (∃ col ∈ sample.allCols,
            (∃ part ∈ strSplitOn col.1 "||", ciMatch latHeaderExp part = true) ∧
            0 < (col.2.filterMap id).countP
                  (fun v => latPats.any (fun p => ciMatch p v)) ∧
            (col.2.filterMap id).length -
                (col.2.filterMap id).countP
                  (fun v => latPats.any (fun p => ciMatch p v)) ≤ 5) ∧
          (∃ col ∈ sample.allCols,
            (∃ part ∈ strSplitOn col.1 "||", ciMatch lonHeaderExp part = true) ∧
            0 < (col.2.filterMap id).countP
                  (fun v => lonPats.any (fun p => ciMatch p v)) ∧
            (col.2.filterMap id).length -
                (col.2.filterMap id).countP
                  (fun v => lonPats.any (fun p => ciMatch p v)) ≤ 5)) ∧
    check_latlong [decRe] [decRe] [llLatOnly, llLonOnly] = none ∧
    check_latlong [decRe] [decRe] [llBoth] = some true := by
  refine ⟨?_, by decide, by decide⟩
  intro latPats lonPats contents
  rw [check_latlong_eq]
  constructor
  · intro h
    by_cases hq : (contents.any fun c =>
        c.allCols.any (latColQ latPats) && c.allCols.any (lonColQ lonPats)) = true
    · rw [List.any_eq_true] at hq
      obtain ⟨sample, hs, hcols⟩ := hq
      rw [Bool.and_eq_true] at hcols
      obtain ⟨hlat, hlon⟩ := hcols
      rw [List.any_eq_true] at hlat hlon
      obtain ⟨lcol, hlc, hlq⟩ := hlat
      obtain ⟨gcol, hgc, hgq⟩ := hlon
      exact ⟨sample, hs,
        ⟨lcol, hlc, (latColQ_iff _ _).mp hlq⟩,
        ⟨gcol, hgc, (lonColQ_iff _ _).mp hgq⟩⟩
    · rw [if_neg hq] at h
      exact absurd h (by simp)
  · intro ⟨sample, hs, ⟨lcol, hlc, hlq⟩, ⟨gcol, hgc, hgq⟩⟩
    have hq : (contents.any fun c =>
        c.allCols.any (latColQ latPats) && c.allCols.any (lonColQ lonPats)) = true := by
      rw [List.any_eq_true]
      refine ⟨sample, hs, ?_⟩
      rw [Bool.and_eq_true]
      constructor
      · rw [List.any_eq_true]
        exact ⟨lcol, hlc, (latColQ_iff _ _).mpr hlq⟩
      · rw [List.any_eq_true]
        exact ⟨gcol, hgc, (lonColQ_iff _ _).mpr hgq⟩
    rw [if_pos hq]

/-- C2: code behavior at the failing input. Row 0 of c2df qualifies as a
tag row and the scan records index 0, yet because the Python loop guard
and branch test use the truthiness of the index, a zero index is treated
as no tag row: the csv sample is returned unchanged, with no label
merging and no row dropping. -/
theorem claim_C2_behavior :
    rowAllHxl c2df 0 = true ∧
    hxlScan c2df = some 0 ∧
    parse_tabular c2df "csv" = some c2df := by
  decide

/-- C7: a dataset none of whose declared file types is allowed returns
the fixed gate message with both verdicts unset and no scratch
subdirectory created. -/
theorem claim_C7 (w : World) (ds : Dataset)
    (h : ds.filetypes.any (fun f => allowed_filetypes.contains f) = false) :
    check_location w ds =
      (some (none, none, some cantCheckMsg),
       { mkdirDone := false, rmtreeDone := false, downloaded := [], classified := [] }) := by
  unfold check_location
  rw [h]
  simp

theorem claim_C7_witness :
    check_location wTriv { filetypes := ["pdf"], resources := [rFail] } =
      (some (none, none, some cantCheckMsg),
       { mkdirDone := false, rmtreeDone := false, downloaded := [], classified := [] }) :=
  claim_C7 wTriv { filetypes := ["pdf"], resources := [rFail] } (by decide)

theorem getLastQ_cons_eq {α : Type} (a : α) (l : List α) :
    (a :: l).getLast? = some (l.getLast?.getD a) := by
  induction l generalizing a with
  | nil => rfl
  | cons b m ih =>
    rw [List.getLast?_cons_cons, ih b]
    simp [ih b]

theorem rdGo_replace (w : World) (ext : String) (read : String → Option PDF)
    (hstep : ∀ (f : String) (fs : List String) (init : List PDF) (e : Option String),
      rdGo w ext (f :: fs) (init, e) =
        match read f with
        | none => rdGo w ext fs (init, some ("Unable to read resource " ++ pathBase f))
        | some df => rdGo w ext fs ([df], e)) :
    ∀ (files : List String) (init : List PDF) (e : Option String),
      (rdGo w ext files (init, e)).map Prod.fst =
        some (match (files.filterMap read).getLast? with
              | some x => [x]
              | none => init) := by
  intro files
  induction files with
  | nil =>
    intro init e
    rfl
  | cons f fs ih =>
    intro init e
    rw [hstep]
    cases hwf : read f with
    | none =>
      rw [ih init _]
      simp [List.filterMap_cons, hwf]
    | some df =>
      rw [ih [df] e]
      simp only [List.filterMap_cons, hwf]
      rw [getLastQ_cons_eq]
      cases hlast : (fs.filterMap read).getLast? <;> simp

/-- C9: in the vector and geo-container branches each successfully read
candidate replaces the whole sample collection, so the collection handed
to the classifiers holds exactly the last successfully read candidate
(and nothing when every read failed). -/
theorem claim_C9 (w : World) (files : List String) (ext : String) :
    (ext = "geojson" ∨ ext = "json" ∨ ext = "shp" ∨ ext = "topojson" →
      (read_downloaded_data w files ext).map Prod.fst =
        some ((files.filterMap w.geo).getLast?).toList) ∧
    (ext = "gdb" ∨ ext = "gpkg" →
      (read_downloaded_data w files ext).map Prod.fst =
        some ((files.filterMap
          (fun f => w.geoLayer (pathDir f) (pathBase f))).getLast?).toList) := by
  constructor
  · intro hext
    unfold read_downloaded_data
    have h := rdGo_replace w ext w.geo ?_ files [] none
    · rw [h]
      cases hlast : (files.filterMap w.geo).getLast? <;> simp
    · intro f fs init e
      rcases hext with rfl | rfl | rfl | rfl <;> rfl
  · intro hext
    unfold read_downloaded_data
    have h := rdGo_replace w ext (fun f => w.geoLayer (pathDir f) (pathBase f)) ?_ files [] none
    · rw [h]
      cases hlast : (files.filterMap (fun f => w.geoLayer (pathDir f) (pathBase f))).getLast? <;>
        simp
    · intro f fs init e
      rcases hext with rfl | rfl <;> rfl

theorem claim_C9_witness :
    (read_downloaded_data wGeo ["a", "b"] "geojson").map Prod.fst =
      some ((["a", "b"].filterMap wGeo.geo).getLast?).toList :=
  (claim_C9 wGeo ["a", "b"] "geojson").1 (by simp)

/-- C8 (amended): the sole-candidate fallback after an extraction with
no suffix match applies only to the xlsx extension. -/
theorem claim_C8_amended (r : Resource)
    (hdl : r.downloadOk = true) (hz : r.isZip = true) (huz : r.unzipOk = true)
    (hglob : r.extractedTree.filter (fun p => strEnds p ("." ++ "xlsx")) = []) :
    download_resource r "xlsx" = (some [r.downloadedFile], none) := by
  unfold download_resource
  rw [hdl, hz]
  have hglob2 : r.extractedTree.filter (fun p => strEnds p ".xlsx") = [] := hglob
  simp [huz, hglob2]

/-- C8 counterexample: a declared xls archive with no matching path in
its extraction tree yields an empty candidate list, not the original
downloaded file. -/
theorem claim_C8_counterexample :
    download_resource rXlsZip "xls" = (some [], none) ∧
    (download_resource rXlsZip "xls").1 ≠ some [rXlsZip.downloadedFile] := by
  decide

theorem claim_C8_witness :
    download_resource rXlsxZip "xlsx" = (some [rXlsxZip.downloadedFile], none) :=
  claim_C8_amended rXlsxZip (by decide) (by decide) (by decide) (by decide)

/-- C10 (amended): a resource with an allowed filetype that downloads
and extracts as a zip archive but whose suffix search finds nothing
(declared extension not the xlsx fallback case) makes download_resource
return an empty list with no error, and the resource loop then returns
at once with the pcode verdict as accumulated so far, the lat/long
verdict as accumulated so far (None only when no earlier resource
established it), a None error, the remaining resources abandoned, and
the finalize step (and the scratch removal) skipped. -/
theorem claim_C10_amended (w : World) (i : Nat) (r : Resource) (rest : List Resource)
    (p l : Option Bool) (e : Option String) (tr : Trace)
    (hp : optTruthy p = false)
    (hft : allowed_filetypes.contains r.filetype = true)
    (hdl : r.downloadOk = true) (hz : r.isZip = true) (huz : r.unzipOk = true)
    (hnx : extOf r.filetype ≠ "xlsx")
    (hglob : r.extractedTree.filter (fun q => strEnds q ("." ++ extOf r.filetype)) = []) :
    download_resource r (extOf r.filetype) = (some [], none) ∧
    clLoop w i (r :: rest) p l e tr =
      (some (p, l, none), { tr with downloaded := tr.downloaded ++ [i] }) := by
  have hdr : download_resource r (extOf r.filetype) = (some [], none) := by
    unfold download_resource
    rw [hdl, hz]
    have hbeq : (extOf r.filetype == "xlsx") = false := by
      simpa using hnx
    simp [huz, hglob, hbeq]
  refine ⟨hdr, ?_⟩
  unfold clLoop
  rw [hp]
  simp [hft, hdr]
  intro hmem
  exact absurd (by simpa using hft) hmem

/-- C10 counterexample to the claim as stated: when an earlier resource
already established the lat/long verdict, the early return after an
empty candidate list surfaces that True verdict, not an unset one. -/
theorem claim_C10_counterexample :
    check_location wCsvLL { filetypes := ["csv"], resources := [rCsvLL, rXlsZip] } =
      (some (none, some true, none),
       { mkdirDone := true, rmtreeDone := false, downloaded := [0, 1], classified := [0] }) := by
  decide

theorem claim_C10_witness :
    download_resource rXlsZip (extOf rXlsZip.filetype) = (some [], none) ∧
    clLoop wTriv 0 [rXlsZip] none none none
        { mkdirDone := true, rmtreeDone := false, downloaded := [], classified := [] } =
      (some (none, none, none),
       { mkdirDone := true, rmtreeDone := false, downloaded := [0], classified := [] }) :=
  claim_C10_amended wTriv 0 rXlsZip [] none none none
    { mkdirDone := true, rmtreeDone := false, downloaded := [], classified := [] }
    (by decide) (by decide) (by decide) (by decide) (by decide) (by decide) (by decide)

theorem clLoop_finalize_reached (w : World) :
    ∀ (rs : List Resource) (i : Nat) (p l : Option Bool) (e : Option String) (tr : Trace),
      (∀ r ∈ rs, allowed_filetypes.contains r.filetype = true →
        ∃ fs, (download_resource r (extOf r.filetype)).1 = some fs ∧ fs ≠ [] ∧
          (read_downloaded_data w fs (extOf r.filetype)).isSome = true) →
      (clLoop w i rs p l e tr).2.rmtreeDone = true ∧
      (clLoop w i rs p l e tr).2.mkdirDone = tr.mkdirDone := by
  intro rs
  induction rs with
  | nil =>
    intro i p l e tr hres
    exact ⟨rfl, rfl⟩
  | cons r rest ih =>
    intro i p l e tr hres
    unfold clLoop
    by_cases hp : optTruthy p = true
    · rw [hp]
      exact ⟨rfl, rfl⟩
    · rw [Bool.of_not_eq_true hp]
      by_cases hft : allowed_filetypes.contains r.filetype = true
      · obtain ⟨fs, hd, hne, hrd⟩ := hres r (List.mem_cons_self r rest) hft
        simp only [hft, Bool.not_true, Bool.false_eq_true, if_false]
        cases hdr : download_resource r (extOf r.filetype) with
        | mk o er =>
          rw [hdr] at hd
          simp only at hd
          subst hd
          simp only
          have hfe : fs.isEmpty = false := by
            cases fs with
            | nil => exact absurd rfl hne
            | cons a b => rfl
          rw [hfe]
          simp only [Bool.false_eq_true, if_false]
          cases hread : read_downloaded_data w fs (extOf r.filetype) with
          | none =>
            rw [hread] at hrd
            simp at hrd
          | some val =>
            cases val with
            | mk contents rerr =>
              exact ih (i + 1) _ _ rerr _
                (fun q hq hqf => hres q (List.mem_cons_of_mem r hq) hqf)
      · have hft' : allowed_filetypes.contains r.filetype = false :=
          Bool.of_not_eq_true hft
        simp only [hft', Bool.not_false, if_pos]
        exact ih (i + 1) p l e tr
          (fun q hq hqf => hres q (List.mem_cons_of_mem r hq) hqf)

/-- C4 (amended): the scratch subdirectory is created after the gate and
removed on every invocation whose examined resources all download to a
non-empty candidate list and read without an uncaught exception; on the
early-return path after a failed download, a failed extraction or an
empty candidate list, it is not removed (see the counterexample). -/
theorem claim_C4_amended (w : World) (ds : Dataset)
    (hgate : ds.filetypes.any (fun f => allowed_filetypes.contains f) = true)
    (hres : ∀ r ∈ ds.resources, allowed_filetypes.contains r.filetype = true →
      ∃ fs, (download_resource r (extOf r.filetype)).1 = some fs ∧ fs ≠ [] ∧
        (read_downloaded_data w fs (extOf r.filetype)).isSome = true) :
    (check_location w ds).2.mkdirDone = true ∧
    (check_location w ds).2.rmtreeDone = true := by
  unfold check_location
  rw [hgate]
  simp only [Bool.not_true, Bool.false_eq_true, if_false]
  obtain ⟨hrm, hmk⟩ := clLoop_finalize_reached w ds.resources 0 none none none
    { mkdirDone := true } hres
  exact ⟨hmk, hrm⟩

/-- C4 counterexample: one csv resource whose download fails makes
check_location return through the early path: the scratch subdirectory
was created but never removed. -/
theorem claim_C4_counterexample :
    (check_location wTriv { filetypes := ["csv"], resources := [rFail] }).2.mkdirDone = true ∧
    (check_location wTriv { filetypes := ["csv"], resources := [rFail] }).2.rmtreeDone = false := by
  decide

theorem claim_C4_witness :
    (check_location wCsvLL { filetypes := ["csv"], resources := [rCsvLL] }).2.mkdirDone = true ∧
    (check_location wCsvLL { filetypes := ["csv"], resources := [rCsvLL] }).2.rmtreeDone = true :=
  claim_C4_amended wCsvLL { filetypes := ["csv"], resources := [rCsvLL] }
    (by decide)
    (by
      intro r hr hft
      have hr' : r = rCsvLL := by
        simpa using hr
      subst hr'
      exact ⟨["a.csv"], by decide, by decide, by decide⟩)

theorem clLoop_trace_mono (w : World) :
    ∀ (rs : List Resource) (i : Nat) (p l : Option Bool) (e : Option String) (tr : Trace),
      ∃ d c,
        (clLoop w i rs p l e tr).2.downloaded = tr.downloaded ++ d ∧
        (clLoop w i rs p l e tr).2.classified = tr.classified ++ c ∧
        d.Chain' (· < ·) ∧ c.Chain' (· < ·) ∧
        (∀ x ∈ d, i ≤ x) ∧ (∀ x ∈ c, i ≤ x) := by
  intro rs
  induction rs with
  | nil =>
    intro i p l e tr
    exact ⟨[], [], by simp [clLoop, finalize], by simp [clLoop, finalize], by simp, by simp,
      by simp, by simp⟩
  | cons r rest ih =>
    intro i p l e tr
    unfold clLoop
    by_cases hp : optTruthy p = true
    · rw [hp]
      exact ⟨[], [], by simp [finalize], by simp [finalize], by simp, by simp, by simp, by simp⟩
    · rw [Bool.of_not_eq_true hp]
      by_cases hft : allowed_filetypes.contains r.filetype = true
      · simp only [hft, Bool.not_true, Bool.false_eq_true, if_false]
        cases hdr : download_resource r (extOf r.filetype) with
        | mk o er =>
          cases o with
          | none =>
            refine ⟨[i], [], by simp, by simp, by simp, by simp, ?_, by simp⟩
            intro x hx
            simp at hx
            omega
          | some files =>
            dsimp only
            cases hfe : files.isEmpty with
            | true =>
              refine ⟨[i], [], by simp, by simp, by simp, by simp, ?_, by simp⟩
              intro x hx
              simp at hx
              omega
            | false =>
              simp only [Bool.false_eq_true, if_false]
              cases hread : read_downloaded_data w files (extOf r.filetype) with
              | none =>
                refine ⟨[i], [], by simp, by simp, by simp, by simp, ?_, by simp⟩
                intro x hx
                simp at hx
                omega
              | some val =>
                cases val with
                | mk contents rerr =>
                  dsimp only
                  obtain ⟨d, c, hd, hc, hdch, hcch, hdb, hcb⟩ := ih (i + 1)
                    (if (!false) = true then check_pcoded w.iso3s w.iso2s contents else p)
                    (if (!optTruthy (if (!false) = true
                          then check_pcoded w.iso3s w.iso2s contents else p)
                        && !optTruthy l && latlongFiletypes.contains r.filetype) = true then
                      check_latlong w.latPats w.lonPats contents
                    else l)
                    rerr
                    { tr with downloaded := tr.downloaded ++ [i],
                              classified := tr.classified ++ [i] }
                  refine ⟨i :: d, i :: c, ?_, ?_, ?_, ?_, ?_, ?_⟩
                  · rw [hd]
                    simp
                  · rw [hc]
                    simp
                  · rw [List.chain'_cons']
                    refine ⟨?_, hdch⟩
                    intro y hy
                    have : y ∈ d := List.mem_of_mem_head? hy
                    have := hdb y this
                    omega
                  · rw [List.chain'_cons']
                    refine ⟨?_, hcch⟩
                    intro y hy
                    have : y ∈ c := List.mem_of_mem_head? hy
                    have := hcb y this
                    omega
                  · intro x hx
                    rcases List.mem_cons.mp hx with rfl | hx'
                    · omega
                    · have := hdb x hx'
                      omega
                  · intro x hx
                    rcases List.mem_cons.mp hx with rfl | hx'
                    · omega
                    · have := hcb x hx'
                      omega
      · have hft' : allowed_filetypes.contains r.filetype = false :=
          Bool.of_not_eq_true hft
        simp only [hft', Bool.not_false, if_pos]
        obtain ⟨d, c, hd, hc, hdch, hcch, hdb, hcb⟩ := ih (i + 1) p l e tr
        refine ⟨d, c, hd, hc, hdch, hcch, ?_, ?_⟩
        · intro x hx
          have := hdb x hx
          omega
        · intro x hx
          have := hcb x hx
          omega

/-- C6: resources are processed strictly in listing order (the traces of
download attempts and of classification runs carry strictly increasing
resource indices), and once the pcode verdict is truthy the loop breaks
at once: the whole remaining loop leaves the trace untouched apart from
the finalize-step scratch removal, so no later resource is downloaded,
loaded or classified for either concern. -/
theorem claim_C6 (w : World) (ds : Dataset) :
    ((check_location w ds).2.downloaded.Chain' (· < ·) ∧
     (check_location w ds).2.classified.Chain' (· < ·)) ∧
    (∀ (i : Nat) (rs : List Resource) (p l : Option Bool) (e : Option String) (tr : Trace),
      optTruthy p = true →
      (clLoop w i rs p l e tr).2 = { tr with rmtreeDone := true }) := by
  constructor
  · unfold check_location
    cases hgate : ds.filetypes.any (fun f => allowed_filetypes.contains f) with
    | false =>
      constructor <;> simp
    | true =>
      simp only [Bool.not_true, Bool.false_eq_true, if_false]
      obtain ⟨d, c, hd, hc, hdch, hcch, _, _⟩ :=
        clLoop_trace_mono w ds.resources 0 none none none { mkdirDone := true }
      constructor
      · rw [hd]
        simpa using hdch
      · rw [hc]
        simpa using hcch
  · intro i rs p l e tr hp
    cases rs with
    | nil => rfl
    | cons r rest =>
      unfold clLoop
      rw [hp]
      rfl

theorem claim_C6_witness :
    (clLoop wTriv 3 [rFail] (some true) none none
        { mkdirDone := true, rmtreeDone := false, downloaded := [7], classified := [] }).2 =
      { mkdirDone := true, rmtreeDone := true, downloaded := [7], classified := [] } :=
  (claim_C6 wTriv { filetypes := [], resources := [] }).2 3 [rFail] (some true) none none
    { mkdirDone := true, rmtreeDone := false, downloaded := [7], classified := [] }
    (by decide)

theorem keepIdxGo_all {α : Type} (keep : Nat → Bool) :
    ∀ (l : List α) (n : Nat), (∀ j, n ≤ j → j < n + l.length → keep j = true) →
      keepIdxGo keep n l = l := by
  intro l
  induction l with
  | nil =>
    intro n h
    rfl
  | cons a t ih =>
    intro n h
    unfold keepIdxGo
    rw [h n (Nat.le_refl n) (by simp)]
    simp only [if_pos]
    rw [ih (n + 1) (fun j hj1 hj2 => h j (by omega) (by simp at hj2 ⊢; omega))]

theorem map_self {α : Type} (l : List α) (f : α → α) (h : ∀ x ∈ l, f x = x) :
    l.map f = l := by
  induction l with
  | nil => rfl
  | cons a t ih =>
    rw [List.map_cons, h a (by simp), ih (fun x hx => h x (by simp [hx]))]

theorem dropEmptyRows_id (df : PDF) (hrows : ∀ r ∈ df.rows, rowEmpty r = false) :
    df.dropEmptyRows = df := by
  unfold PDF.dropEmptyRows
  have h : df.rows.filter (fun r => !rowEmpty r) = df.rows := by
    rw [List.filter_eq_self]
    intro r hr
    rw [hrows r hr]
    rfl
  rw [h]

theorem dropEmptyCols_id (df : PDF)
    (hflags : df.objFlags.length = df.headers.length)
    (hrlen : ∀ r ∈ df.rows, r.length = df.headers.length)
    (hcols : ∀ j, j < df.headers.length →
      df.rows.any (fun r => (r.getD j none).isSome) = true) :
    df.dropEmptyCols = df := by
  unfold PDF.dropEmptyCols keepIdx
  have hh : keepIdxGo (fun j => df.rows.any (fun r => (r.getD j none).isSome)) 0 df.headers
      = df.headers := by
    apply keepIdxGo_all
    intro j hj1 hj2
    exact hcols j (by omega)
  have hf : keepIdxGo (fun j => df.rows.any (fun r => (r.getD j none).isSome)) 0 df.objFlags
      = df.objFlags := by
    apply keepIdxGo_all
    intro j hj1 hj2
    rw [hflags] at hj2
    exact hcols j (by omega)
  have hr : df.rows.map
      (fun r => keepIdxGo (fun j => df.rows.any (fun r => (r.getD j none).isSome)) 0 r)
      = df.rows := by
    apply map_self
    intro r hrm
    apply keepIdxGo_all
    intro j hj1 hj2
    rw [hrlen r hrm] at hj2
    exact hcols j (by omega)
  simp only [hh, hf, hr]

theorem hxlScanGo_none (df : PDF)
    (hhxl : ∀ i, i < 10 → i < df.rows.length → rowAllHxl df i = false) :
    ∀ (fuel i : Nat), hxlScanGo df fuel i none = none := by
  intro fuel
  induction fuel with
  | zero =>
    intro i
    rfl
  | succ fuel ih =>
    intro i
    unfold hxlScanGo
    by_cases hi : i < 10
    · by_cases hlen : i < df.rows.length
      · rw [hhxl i hi hlen]
        simp [hi, hlen, optNatTruthy, ih]
      · simp [hi, hlen]
    · simp [hi]

/-- C5 (amended): for the delimited-text (csv) extension class, the
normalizer is the identity on an already-normalized sample: unique
placeholder-free labels, no all-empty row or column, no qualifying HXL
tag row among the first scanned rows (the length hypotheses state the
well-formedness of the frame). For any other extension class an
all-text sample with more than one row is re-processed by the multi-row
composite-header reconstruction and the normalizer is not a no-op. -/
theorem claim_C5_amended (df : PDF)
    (hnodup : df.headers.Nodup)
    (hne : df.headers ≠ [])
    (hplain : ∀ c ∈ df.headers, strStarts c "Unnamed" = false)
    (hflags : df.objFlags.length = df.headers.length)
    (hrlen : ∀ r ∈ df.rows, r.length = df.headers.length)
    (hrows : ∀ r ∈ df.rows, rowEmpty r = false)
    (hcols : ∀ j, j < df.headers.length →
      df.rows.any (fun r => (r.getD j none).isSome) = true)
    (hhxl : ∀ i, i < 10 → i < df.rows.length → rowAllHxl df i = false) :
    parse_tabular df "csv" = some df := by
  unfold parse_tabular
  rw [dropEmptyRows_id df hrows, dropEmptyCols_id df hflags hrlen hcols]
  have hall : df.headers.all (fun c => strStarts c "Unnamed") = false := by
    obtain ⟨c, hc⟩ := List.exists_mem_of_ne_nil df.headers hne
    cases h : df.headers.all (fun c => strStarts c "Unnamed") with
    | true =>
      have := List.all_eq_true.mp h c hc
      rw [hplain c hc] at this
      exact absurd this (by simp)
    | false => rfl
  dsimp only
  rw [hall]
  simp only [Bool.false_eq_true, if_false]
  cases hobj : df.objFlags.all id with
  | false =>
    simp [hobj]
  | true =>
    simp only [hobj, Bool.not_true, Bool.false_eq_true, if_false]
    cases hlen1 : df.rows.length == 1 with
    | true =>
      simp [hlen1]
    | false =>
      simp only [hlen1, Bool.false_eq_true, if_false]
      have hscan : hxlScan df = none := hxlScanGo_none df hhxl 10 0
      rw [hscan]
      rfl

/-- C5 counterexample: an already-normalized sample (unique
placeholder-free labels, no empty row or column, no tag row) of the
spreadsheet class is not returned unchanged: the composite-header branch
consumes its leading rows, so normalization is not idempotent regardless
of the extension class. -/
theorem claim_C5_counterexample :
    c5df.headers.Nodup ∧
    (∀ c ∈ c5df.headers, strStarts c "Unnamed" = false) ∧
    (∀ r ∈ c5df.rows, rowEmpty r = false) ∧
    (∀ j, j < c5df.headers.length →
      c5df.rows.any (fun r => (r.getD j none).isSome) = true) ∧
    (∀ i, i < 10 → i < c5df.rows.length → rowAllHxl c5df i = false) ∧
    parse_tabular c5df "xlsx" ≠ some c5df := by
  decide

theorem claim_C5_witness : parse_tabular c5df "csv" = some c5df :=
  claim_C5_amended c5df (by decide) (by decide) (by decide) (by decide)
    (by decide) (by decide) (by decide) (by decide)
